import Mathlib

/-!
Verification of the `@_apparatus_/intl-tools` localizer (src/localizer.ts)
against its natural-language specification.

The embedding models the single cohesive module of the source:
resource storage and reloading (`createLocalizer`'s `reload`, `setLocales`,
`setModules`, `wait`), key resolution with nesting expansion (`read`),
locale-fallback formatting with the compiled-formatter cache (`format`),
and the markup tag parser (`createTagger`).

Modeling conventions:
- JS objects holding resources are association lists with first-match
  lookup; prototype-inherited properties and JS string index coercion
  (numeric indexing into a leaf string) are outside the model.
- Asynchrony is flattened: a load settles at the point `reload` schedules
  it, which is the state an awaited `wait()` observes.  A load collaborator
  that throws or rejects is an `Except.error`.
- Thrown exceptions are `Except` errors; the unbounded recursion of
  nesting expansion is made total with explicit fuel (`ReadErr.fuelOut`).
- Notifier callbacks and parse-collaborator invocations are recorded as
  events (`Ev`) so that claims about when they fire can be stated.
-/

namespace Intl

/-- Translation resource tree: `export type Resource = { [_ in string]: Resource | string }`.
Leaves are strings; JS objects are modeled as association lists. -/
inductive Resource where
  | leaf (s : String)
  | node (entries : List (String × Resource))

/-- First-match association-list lookup (JS own-property access). -/
def lookupEntries : List (String × Resource) → String → Option Resource
  | [], _ => none
  | (k, v) :: rest, key => if k = key then some v else lookupEntries rest key

/-- Models `resource?.[k]`: property access on a resource value; indexing a leaf
string is modeled as absent. -/
def Resource.get : Resource → String → Option Resource
  | .leaf _, _ => none
  | .node es, key => lookupEntries es key

/-- JS `Array.prototype.join(sep)`. -/
def joinSep (sep : String) : List String → String
  | [] => ""
  | [x] => x
  | x :: y :: rest => x ++ sep ++ joinSep sep (y :: rest)

/-- JS `String.prototype.split(sep)` for a one-character separator, on
character lists. -/
def splitOnCharL (sep : Char) (cs : List Char) : List (List Char) :=
  cs.foldr
    (fun c acc =>
      match acc with
      | [] => [[c]]
      | g :: gs => if c = sep then [] :: g :: gs else (c :: g) :: gs)
    [[]]

/-- JS `String.prototype.split(sep)` for a one-character separator. -/
def splitOnCharS (sep : Char) (s : String) : List String :=
  (splitOnCharL sep s.data).map String.mk

/-- The raw value `read` resolves before any check:
`resource?.[key.join('.')] ?? key.reduce(($, k) => $?.[k], resource)` —
the flattened single key is tried first, then segment-by-segment
traversal. -/
def rawLookup (res : Option Resource) (key : List String) : Option Resource :=
  match res.bind (fun r => r.get (joinSep "." key)) with
  | some v => some v
  | none => key.foldl (fun acc k => acc.bind (fun r => r.get k)) res

/-- Lazy body of the nesting regex `<:(.+?)\/>`: the shortest nonempty run
of non-newline characters followed by the literal `/>`.  Returns the inner
capture and the remaining text. -/
def splitAtClose : List Char → Option (List Char × List Char)
  | [] => none
  | c :: rest =>
    if c = '\n' then none
    else
      match rest with
      | '/' :: '>' :: suffix => some ([c], suffix)
      | _ => (splitAtClose rest).map (fun p => (c :: p.1, p.2))

/-- Attempt to match `<:(.+?)\/>` anchored at the front of the input. -/
def tryRefAt : List Char → Option (List Char × List Char)
  | '<' :: ':' :: rest => splitAtClose rest
  | _ => none

/-- Leftmost match of `<:(.+?)\/>`: text before the match, the inner
capture, and text after the match. -/
def findRef : List Char → Option (List Char × List Char × List Char)
  | [] => none
  | c :: rest =>
    match tryRefAt (c :: rest) with
    | some (inner, suffix) => some ([], inner, suffix)
    | none =>
      match findRef rest with
      | some (pre, inner, suffix) => some (c :: pre, inner, suffix)
      | none => none

/-- A piece of a template string: literal text, or the inner capture of
one `<:...?/>` nesting marker. -/
inductive RefPiece where
  | lit (cs : List Char)
  | ref (inner : List Char)

/-- Split a template into literal pieces and nesting-marker captures, in
order (the iteration of `String.prototype.replaceAll`); fueled, with fuel
at least the text length so exhaustion is unreachable. -/
def refSplit : Nat → List Char → List RefPiece
  | 0, cs => [.lit cs]
  | fuel+1, cs =>
    match findRef cs with
    | none => [.lit cs]
    | some (pre, inner, suffix) => .lit pre :: .ref inner :: refSplit fuel suffix

/-- Observable collaborator invocations: a Notifier call (key access with
the raw resolved value, `undefined` = `none`), and a parse-collaborator
call. -/
inductive Ev where
  | notify (locale module : String) (key : List String) (raw : Option Resource)
  | parseCall (locale module : String) (raw : String)

/-- Faults of `read`: the TypeError of the unchecked
`notifiers[locale]![module]!` lookup-and-call, `'intl - key missing'`,
`'intl - key partial'` (named `keyNotLeaf` here), and fuel exhaustion of
the model (the source recursion is unbounded). -/
inductive ReadErr where
  | typeError
  | keyMissing
  | keyNotLeaf
  | fuelOut

/-- Models `const [key, ns = module] = nestedId.split(':').reverse()` followed by
`key.split('.')`: the module referenced by a nesting marker (defaulting to
the current module) and the key path. -/
def refTarget (module : String) (inner : String) : String × List String :=
  match (splitOnCharS ':' inner).reverse with
  | [] => (module, [])
  | k :: rest =>
    (match rest with
     | [] => module
     | n :: _ => n,
     splitOnCharS '.' k)

/-- Models `raw.replaceAll(/<:(.+?)\/>/g, cb)` with the fallible replacement
callback `cb`: pieces are emitted left to right and an error thrown by a
nested `read` aborts the remaining replacements, keeping the events of the
callbacks already run. -/
def expandPieces (readFn : String → String → List String → Except ReadErr String × List Ev)
    (locale module : String) : List RefPiece → Except ReadErr String × List Ev
  | [] => (.ok "", [])
  | .lit cs :: rest =>
    let next := expandPieces readFn locale module rest
    (match next.1 with
     | .ok t => .ok (String.mk cs ++ t)
     | .error e => .error e,
     next.2)
  | .ref inner :: rest =>
    let tgt := refTarget module (String.mk inner)
    match readFn locale tgt.1 tgt.2 with
    | (.error e, evs) => (.error e, evs)
    | (.ok s, evs) =>
      let next := expandPieces readFn locale module rest
      (match next.1 with
       | .ok t => .ok (s ++ t)
       | .error e => .error e,
       evs ++ next.2)

/-- Models `read(locale, module, key)` of src/localizer.ts with explicit fuel for
the unbounded nesting recursion.  The unchecked notifier lookup
`notifiers[locale]![module]!(key, raw)` runs before any outcome: when the
pair has no notifier the call dies with a TypeError and no event; when it
exists the notify event fires, then falsy raw values (absent, or the empty
string) throw key-missing, objects throw key-partial, and a nonempty leaf
is returned after nesting expansion. -/
def readF (res : String → String → Option Resource) (ntf : String → String → Bool) :
    Nat → String → String → List String → Except ReadErr String × List Ev
  | 0, _, _, _ => (.error .fuelOut, [])
  | fuel+1, locale, module, key =>
    let raw := rawLookup (res locale module) key
    if ntf locale module then
      let ev := Ev.notify locale module key raw
      match raw with
      | none => (.error .keyMissing, [ev])
      | some (.node _) => (.error .keyNotLeaf, [ev])
      | some (.leaf s) =>
        if s = "" then (.error .keyMissing, [ev])
        else
          let next :=
            expandPieces (readF res ntf fuel) locale module (refSplit (s.data.length + 1) s.data)
          (next.1, ev :: next.2)
    else (.error .typeError, [])

/-- The `values` argument of a formatter (an optional JS object). -/
abbrev Values := Option (List (String × String))

/-- A compiled formatter: the callable the parse collaborator returns, which
may itself throw when invoked. -/
abbrev Fmt := Values → Except Unit String

/-- The external collaborators of `createLocalizer` that resolution depends
on: `load` (may throw/reject: `Except.error`) and `parse` (may throw). -/
structure Params where
  load : String → String → Except Unit Resource
  parse : String → String → List String → String → Except Unit Fmt

/-- The mutable instance state of one localizer: the frozen locale/module
sequences and the four caches (`promises` keeps only settledness, which is
what the flattened-async model observes; `notifiers` keeps existence, the
callback itself being modeled by notify events). -/
structure LocState where
  locales : List String
  modules : List String
  promises : String → String → Bool
  resources : String → String → Option Resource
  notifiers : String → String → Bool
  formatters : String → Option Fmt

/-- The state of a freshly created localizer. -/
def initState : LocState :=
  { locales := []
    modules := []
    promises := fun _ _ => false
    resources := fun _ _ => none
    notifiers := fun _ _ => false
    formatters := fun _ => none }

/-- Models `[...new Set(xs)]`: first-occurrence deduplication. -/
def uniqueFirst (xs : List String) : List String :=
  xs.foldl (fun acc x => if x ∈ acc then acc else acc ++ [x]) []

/-- Models `locales.flatMap(locale => modules.map(module => ({ locale, module })))`. -/
def crossPairs (ls ms : List String) : List (String × String) :=
  ls.flatMap (fun l => ms.map (fun m => (l, m)))

/-- The settled value of one load: the loaded resource, or the empty
resource substituted by `.catch(error => ({}))`. -/
def loadOrEmpty (p : Params) (l m : String) : Resource :=
  match p.load l m with
  | .ok r => r
  | .error _ => .node []

/-- One iteration of `reload`'s `forEach`: record the promise, the settled
resource, and the notifier for one (locale, module) pair. -/
def loadPair (p : Params) (s : LocState) (lm : String × String) : LocState :=
  { s with
    promises := fun l m => if l = lm.1 ∧ m = lm.2 then true else s.promises l m
    resources := fun l m =>
      if l = lm.1 ∧ m = lm.2 then some (loadOrEmpty p lm.1 lm.2) else s.resources l m
    notifiers := fun l m => if l = lm.1 ∧ m = lm.2 then true else s.notifiers l m }

/-- Models `reload()`: load every pair of the current cross product that lacks a
promise record. -/
def reload (p : Params) (s : LocState) : LocState :=
  ((crossPairs s.locales s.modules).filter (fun lm => !(s.promises lm.1 lm.2))).foldl
    (loadPair p) s

/-- Models `setLocales(...locales)`: replace the deduplicated locale sequence and
reload. -/
def setLocales (p : Params) (L : List String) (s : LocState) : LocState :=
  reload p { s with locales := uniqueFirst L }

/-- Models `setModules(...modules)`: replace the deduplicated module sequence and
reload. -/
def setModules (p : Params) (M : List String) (s : LocState) : LocState :=
  reload p { s with modules := uniqueFirst M }

/-- Models `Promise.all` over the values: `none` anywhere is the modeled
TypeError / rejection. -/
def collectAll : List (Option Resource) → Option (List Resource)
  | [] => some []
  | none :: _ => none
  | some r :: rest =>
    match collectAll rest with
    | some rs => some (r :: rs)
    | none => none

/-- Models `wait()`: `Promise.all(locales.flatMap(l => modules.map(m => promises[l]![m]!)))`;
a missing promise record is the modeled TypeError, a present one settles to
the stored resource. -/
def waitM (s : LocState) : Option (List Resource) :=
  collectAll ((crossPairs s.locales s.modules).map
    (fun lm => if s.promises lm.1 lm.2 then s.resources lm.1 lm.2 else none))

/-- Models ``const id = `${locale}:${module}:${key}` ``: JS stringifies the key
array by joining its segments with commas. -/
def cacheId (locale module : String) (key : List String) : String :=
  locale ++ ":" ++ module ++ ":" ++ joinSep "," key

/-- Models ``return `${locales.join('|')}:${module}:${key.join('.')}` ``: the
total-fallback marker string of `format`. -/
def fallbackStr (locales : List String) (module : String) (key : List String) : String :=
  joinSep "|" locales ++ ":" ++ module ++ ":" ++ joinSep "." key

/-- Models `formatters[id] ??= f`: fill one slot of the formatter cache. -/
def insertFmt (s : LocState) (id : String) (f : Fmt) : LocState :=
  { s with formatters := fun i => if i = id then some f else s.formatters i }

/-- The `for (const locale of locales)` loop of `format`: at each locale,
an existing cached formatter is invoked directly (skipping `read`); on a
cache miss `read`, then `parse`, then cache, then invoke — any failure
falls through to the next locale, and exhaustion returns the fallback
string `fb`.  Returns the result, the updated state, and the events. -/
def formatGo (p : Params) (values : Values) (fuel : Nat) (module : String) (key : List String)
    (fb : String) : List String → LocState → String × LocState × List Ev
  | [], s => (fb, s, [])
  | locale :: rest, s =>
    match s.formatters (cacheId locale module key) with
    | some f =>
      match f values with
      | .ok out => (out, s, [])
      | .error _ => formatGo p values fuel module key fb rest s
    | none =>
      let rd := readF s.resources s.notifiers fuel locale module key
      match rd.1 with
      | .error _ =>
        let next := formatGo p values fuel module key fb rest s
        (next.1, next.2.1, rd.2 ++ next.2.2)
      | .ok raw =>
        match p.parse locale module [] raw with
        | .error _ =>
          let next := formatGo p values fuel module key fb rest s
          (next.1, next.2.1, (rd.2 ++ [.parseCall locale module raw]) ++ next.2.2)
        | .ok f =>
          let s2 := insertFmt s (cacheId locale module key) f
          match f values with
          | .ok out => (out, s2, rd.2 ++ [.parseCall locale module raw])
          | .error _ =>
            let next := formatGo p values fuel module key fb rest s2
            (next.1, next.2.1, (rd.2 ++ [.parseCall locale module raw]) ++ next.2.2)

/-- Models `format(module, key, values)` of src/localizer.ts. -/
def format (p : Params) (fuel : Nat) (values : Values) (module : String) (key : List String)
    (s : LocState) : String × LocState × List Ev :=
  formatGo p values fuel module key (fallbackStr s.locales module key) s.locales s

/-- Forget the error of a fallible step (`try`/`catch` as control flow). -/
def toOpt : Except Unit String → Option String
  | .ok a => some a
  | .error _ => none

/-- The outcome of one locale's attempt inside `format`, stated against a
fixed state: the cached formatter's result when the cache holds the
triple's id, otherwise read-parse-invoke, with every failure collapsing to
`none`. -/
def localeAttempt (p : Params) (values : Values) (fuel : Nat) (module : String)
    (key : List String) (s : LocState) (locale : String) : Option String :=
  match s.formatters (cacheId locale module key) with
  | some f => toOpt (f values)
  | none =>
    match (readF s.resources s.notifiers fuel locale module key).1 with
    | .error _ => none
    | .ok raw =>
      match p.parse locale module [] raw with
      | .error _ => none
      | .ok f => toOpt (f values)

/-! ### The tag parser (`createTagger`) -/

/-- Kind of one matched markup token, from `match.at(-2) === '/'`
(self-closing) and `match.at(1) !== '/'` (opening vs closing). -/
inductive TokKind where
  | tagOpen
  | tagClose
  | tagSelf

/-- A character allowed inside a tag name: the class `[^:>/\s]`. -/
def isNameChar (c : Char) : Bool :=
  !(c = ':' || c = '>' || c = '/' || c.isWhitespace)

/-- One token of the tagging regex `<\/?([^:>/\s]+)\/?>` anchored at the
front of the input: its kind, the captured name, and the rest of the
text. -/
def matchToken : List Char → Option (TokKind × String × List Char)
  | '<' :: rest =>
    let os : Bool × List Char :=
      match rest with
      | '/' :: r => (true, r)
      | _ => (false, rest)
    let name := os.2.takeWhile isNameChar
    let rest2 := os.2.dropWhile isNameChar
    if name.isEmpty then none
    else
      match rest2 with
      | '>' :: r => some (if os.1 then .tagClose else .tagOpen, String.mk name, r)
      | '/' :: '>' :: r => some (.tagSelf, String.mk name, r)
      | _ => none
  | _ => none

/-- A piece of tagged text: literal text between tokens, or one token. -/
inductive Piece where
  | lit (cs : List Char)
  | tok (k : TokKind) (name : String)

/-- The `text.matchAll(...)` iteration with the `done` cursor: literal
slices between tokens become `lit` pieces (only when nonempty), matched
tokens become `tok` pieces; fueled, with fuel at least the text length so
exhaustion is unreachable. -/
def lexGo : Nat → List Char → List Char → List Piece
  | 0, acc, cs =>
    (match acc.reverse ++ cs with
     | [] => []
     | l => [.lit l])
  | fuel+1, acc, cs =>
    match cs with
    | [] => if acc.isEmpty then [] else [.lit acc.reverse]
    | c :: rest =>
      match matchToken (c :: rest) with
      | some (k, name, r) =>
        (if acc.isEmpty then [] else [.lit acc.reverse]) ++ .tok k name :: lexGo fuel [] r
      | none => lexGo fuel (c :: acc) rest

/-- Tokenize a tagged text. -/
def lex (text : String) : List Piece := lexGo (text.data.length + 1) [] text.data

/-- Models `(tags[t] ?? tag)(children, t)`: the matching wrapper or the fallback. -/
def applyTag {α : Type} (tag : List α → String → α)
    (tags : String → Option (List α → String → α)) (name : String) (children : List α) : α :=
  match tags name with
  | some f => f children name
  | none => tag children name

/-- The stack loop of `createTagger` over the token pieces.  The stack is
kept top-first (the JS array's `stack.at(-1)` is the head); `none` models
the TypeError a `stack.at(-1)!` on an empty stack would raise (proved
unreachable).  A closing token on the sole root frame skips the pop and
pushes the wrapped root children back onto the root itself, absorbing
excess closers. -/
def runPieces {α : Type} (ofString : String → α) (tag : List α → String → α)
    (tags : String → Option (List α → String → α)) :
    List Piece → List (List α) → Option (List (List α))
  | [], stack => some stack
  | piece :: rest, stack =>
    match stack with
    | [] => none
    | top :: others =>
      match piece with
      | .lit cs =>
        runPieces ofString tag tags rest ((top ++ [ofString (String.mk cs)]) :: others)
      | .tok .tagSelf name =>
        runPieces ofString tag tags rest ((top ++ [applyTag tag tags name []]) :: others)
      | .tok .tagOpen _ =>
        runPieces ofString tag tags rest ([] :: top :: others)
      | .tok .tagClose name =>
        match others with
        | next :: others2 =>
          runPieces ofString tag tags rest ((next ++ [applyTag tag tags name top]) :: others2)
        | [] =>
          runPieces ofString tag tags rest [top ++ [applyTag tag tags name top]]

/-- Models `createTagger(tag)(text, tags)`: run the stack loop from the lone root
frame, then pass the flattened frames (`stack.flat()`, bottom first) to
the fallback tag with the empty tag name.  `α` stands for the union type
`TTag | string`, `ofString` for its string injection. -/
def tagger {α : Type} (ofString : String → α) (tag : List α → String → α) (text : String)
    (tags : String → Option (List α → String → α)) : Option α :=
  (runPieces ofString tag tags (lex text) [[]]).map (fun stack => tag stack.reverse.flatten "")

/-! ### Reachable states through the public mutators -/

/-- A public mutation of the locale/module configuration. -/
inductive LOp where
  | setLs (L : List String)
  | setMs (M : List String)

/-- Apply one mutation. -/
def applyOp (p : Params) : LOp → LocState → LocState
  | .setLs L, s => setLocales p L s
  | .setMs M, s => setModules p M s

/-- Apply a sequence of mutations from a start state. -/
def applyOps (p : Params) (ops : List LOp) (s : LocState) : LocState :=
  ops.foldl (fun s op => applyOp p op s) s

/-- The pair (l, m) is in no cross product along the trace of `ops` from
`s`: it is never reconciled, so no load, promise or notifier is ever
created for it. -/
def neverPair (p : Params) (l m : String) : List LOp → LocState → Prop
  | [], _ => True
  | op :: ops, s =>
    ¬(l ∈ (applyOp p op s).locales ∧ m ∈ (applyOp p op s).modules) ∧
      neverPair p l m ops (applyOp p op s)

/-! ### Concrete instances used by counterexamples and witnesses -/

/-- A notifier table where every pair is bound. -/
def ntfAll : String → String → Bool := fun _ _ => true

/-- The modeled default parse collaborator
`(_, __, ___, raw) => () => raw`. -/
def defaultParse : String → String → List String → String → Except Unit Fmt :=
  fun _ _ _ raw => .ok (fun _ => .ok raw)

/-- C1 counterexample collaborators: module `m:a` of locale `en` holds
`{ b: "hello" }`, everything else is empty. -/
def c1p : Params :=
  { load := fun l m =>
      if l = "en" ∧ m = "m:a" then .ok (.node [("b", .leaf "hello")]) else .ok (.node [])
    parse := defaultParse }

/-- C1 counterexample, phase 1: configure `["en"] × ["m:a"]`. -/
def c1sA : LocState := setModules c1p ["m:a"] (setLocales c1p ["en"] initState)

/-- C1 counterexample, phase 2: after a successful
`format("m:a", ["b"])` call (which caches a formatter under the string id
`"en:m:a:b"`), reconfigure to `["en:m"] × ["a"]`. -/
def c1sB : LocState :=
  setModules c1p ["a"] (setLocales c1p ["en:m"] (format c1p 3 none "m:a" ["b"] c1sA).2.1)

/-- C3 counterexample resources: the key `a` holds the empty-string leaf. -/
def c3res : String → String → Option Resource := fun l m =>
  if l = "en" ∧ m = "m" then some (.node [("a", .leaf "")]) else none

/-- C3 witness resources: the key `a` holds the leaf `"x"`. -/
def c3resW : String → String → Option Resource := fun l m =>
  if l = "en" ∧ m = "m" then some (.node [("a", .leaf "x")]) else none

/-- C4 resources in flattened form: `{ "a.b": "x" }`. -/
def c4resFlat : String → String → Option Resource := fun l m =>
  if l = "en" ∧ m = "m" then some (.node [("a.b", .leaf "x")]) else none

/-- C4 resources in nested form: `{ a: { b: "x" } }`. -/
def c4resNest : String → String → Option Resource := fun l m =>
  if l = "en" ∧ m = "m" then some (.node [("a", .node [("b", .leaf "x")])]) else none

/-- C5 resources, same-module nesting: `{ app: "X", welcome: "Hi <:app/>" }`
plus a dotted-path reference `{ deep: "<:n.d/>", n: { d: "D" } }`. -/
def c5res : String → String → Option Resource := fun l m =>
  if l = "en" ∧ m = "m" then
    some (.node
      [("app", .leaf "X"), ("welcome", .leaf "Hi <:app/>"),
       ("deep", .leaf "<:n.d/>"), ("n", .node [("d", .leaf "D")])])
  else none

/-- C5 resources, cross-module nesting: module `m1` references key `other`
of module `m2`. -/
def c5resX : String → String → Option Resource := fun l m =>
  if l = "en" ∧ m = "m1" then some (.node [("k", .leaf "A <:m2:other/> B")])
  else if l = "en" ∧ m = "m2" then some (.node [("other", .leaf "O")])
  else none

/-- C6 counterexample collaborators: module `m` of locale `en` holds
`{ k: "v" }`. -/
def c6p : Params :=
  { load := fun l m =>
      if l = "en" ∧ m = "m" then .ok (.node [("k", .leaf "v")]) else .ok (.node [])
    parse := defaultParse }

/-- C6 counterexample: configure `["en"] × ["m"]`. -/
def c6sA : LocState := setModules c6p ["m"] (setLocales c6p ["en"] initState)

/-- C6 counterexample: the state after a first `format("m", ["k"])` call,
whose cache makes the second call skip `read`. -/
def c6sB : LocState := (format c6p 2 none "m" ["k"] c6sA).2.1

/-- C7 counterexample collaborators: module `m` of locale `en` holds
`{ "a.b": "v" }`. -/
def c7p : Params :=
  { load := fun l m =>
      if l = "en" ∧ m = "m" then .ok (.node [("a.b", .leaf "v")]) else .ok (.node [])
    parse := defaultParse }

/-- C7 counterexample: configure `["en"] × ["m"]`. -/
def c7sA : LocState := setModules c7p ["m"] (setLocales c7p ["en"] initState)

/-- C7 counterexample: after `format("m", ["a","b"])` has cached a
formatter under `"en:m:a,b"`, the distinct triple
`("en", "m", ["a,b"])` encodes to the same id. -/
def c7sB : LocState := (format c7p 2 none "m" ["a", "b"] c7sA).2.1

/-- C7 witness: a state whose cache holds one concrete formatter. -/
def c7fW : Fmt := fun _ => .ok "out"

/-- C7 witness state: `c7fW` cached under the id of `("en", "m", ["k"])`. -/
def c7sW : LocState := insertFmt initState (cacheId "en" "m" ["k"]) c7fW

/-- C8 wrapper: `wrap(children, name) = "<"+name+">"+children.join("")+"</"+name+">"`. -/
def c8wrap : List String → String → String :=
  fun children name => "<" ++ name ++ ">" ++ String.join children ++ "</" ++ name ++ ">"

/-- C8 tag map `{ a: wrap, b: wrap }`. -/
def c8tags : String → Option (List String → String → String) :=
  fun t => if t = "a" then some c8wrap else if t = "b" then some c8wrap else none

/-- C10 witness collaborators: every load yields the empty resource. -/
def c10p : Params :=
  { load := fun _ _ => .ok (.node []), parse := defaultParse }

/-- C10 witness mutation sequence: locales `["en"]`, then modules
`["mm"]`; the pair `("fr", "mm")` is never reconciled. -/
def c10ops : List LOp := [.setLs ["en"], .setMs ["mm"]]

/-- C2 witness collaborators. -/
def c2p : Params :=
  { load := fun _ _ => .ok (.node [("x", .leaf "y")]), parse := defaultParse }

/-- C6 witness resources: module `m` of locale `en` holds `{ k: "v" }`. -/
def c6resW : String → String → Option Resource := fun l m =>
  if l = "en" ∧ m = "m" then some (.node [("k", .leaf "v")]) else none

/-- C6 witness state: loaded resources and notifiers for `("en", "m")`,
with an empty formatter cache. -/
def c6sW : LocState :=
  { locales := ["en"]
    modules := ["m"]
    promises := fun l m => decide (l = "en" ∧ m = "m")
    resources := c6resW
    notifiers := fun l m => decide (l = "en" ∧ m = "m")
    formatters := fun _ => none }

/-! ### Helper lemmas -/

theorem runPieces_isSome {α : Type} (ofString : String → α) (tag : List α → String → α)
    (tags : String → Option (List α → String → α)) :
    ∀ (pieces : List Piece) (stack : List (List α)), stack ≠ [] →
      (runPieces ofString tag tags pieces stack).isSome = true := by
  intro pieces
  induction pieces with
  | nil => intro stack h; simp [runPieces]
  | cons piece rest ih =>
    intro stack h
    match stack with
    | [] => exact absurd rfl h
    | top :: others =>
      match piece with
      | .lit cs => exact ih _ (by simp [runPieces])
      | .tok .tagSelf name => exact ih _ (by simp)
      | .tok .tagOpen name => exact ih _ (by simp)
      | .tok .tagClose name =>
        match others with
        | next :: others2 => exact ih _ (by simp)
        | [] => exact ih _ (by simp)

theorem mem_uniqueFirst_aux (x : String) :
    ∀ (xs acc : List String),
      (x ∈ xs.foldl (fun acc y => if y ∈ acc then acc else acc ++ [y]) acc) ↔ x ∈ acc ∨ x ∈ xs := by
  intro xs
  induction xs with
  | nil => intro acc; simp
  | cons y rest ih =>
    intro acc
    by_cases hy : y ∈ acc
    · rw [List.foldl_cons, if_pos hy, ih]
      constructor
      · rintro (h | h)
        · exact Or.inl h
        · exact Or.inr (List.mem_cons_of_mem _ h)
      · rintro (h | h)
        · exact Or.inl h
        · rcases List.mem_cons.mp h with rfl | h
          · exact Or.inl hy
          · exact Or.inr h
    · rw [List.foldl_cons, if_neg hy, ih]
      simp [List.mem_append, or_assoc]

theorem mem_uniqueFirst (x : String) (xs : List String) : x ∈ uniqueFirst xs ↔ x ∈ xs := by
  unfold uniqueFirst
  rw [mem_uniqueFirst_aux]
  simp

theorem mem_crossPairs (l m : String) (ls ms : List String) :
    (l, m) ∈ crossPairs ls ms ↔ l ∈ ls ∧ m ∈ ms := by
  simp [crossPairs, List.mem_flatMap, List.mem_map, Prod.ext_iff]

theorem crossPairs_nil (ls : List String) : crossPairs ls [] = [] := by
  induction ls with
  | nil => rfl
  | cons l rest ih => simp [crossPairs] at ih ⊢

theorem loadPair_same (p : Params) (s : LocState) (lm : String × String) :
    (loadPair p s lm).promises lm.1 lm.2 = true ∧
    (loadPair p s lm).resources lm.1 lm.2 = some (loadOrEmpty p lm.1 lm.2) ∧
    (loadPair p s lm).notifiers lm.1 lm.2 = true := by
  simp [loadPair]

theorem loadPair_other (p : Params) (s : LocState) (lm : String × String) (l m : String)
    (h : (l, m) ≠ lm) :
    (loadPair p s lm).promises l m = s.promises l m ∧
    (loadPair p s lm).resources l m = s.resources l m ∧
    (loadPair p s lm).notifiers l m = s.notifiers l m := by
  have h2 : ¬(l = lm.1 ∧ m = lm.2) := by
    rintro ⟨rfl, rfl⟩
    exact h rfl
  simp [loadPair, h2]

theorem loadPair_config (p : Params) (s : LocState) (lm : String × String) :
    (loadPair p s lm).locales = s.locales ∧ (loadPair p s lm).modules = s.modules ∧
    (loadPair p s lm).formatters = s.formatters :=
  ⟨rfl, rfl, rfl⟩

theorem foldl_loadPair_config (p : Params) :
    ∀ (pairs : List (String × String)) (s : LocState),
      (pairs.foldl (loadPair p) s).locales = s.locales ∧
      (pairs.foldl (loadPair p) s).modules = s.modules ∧
      (pairs.foldl (loadPair p) s).formatters = s.formatters := by
  intro pairs
  induction pairs with
  | nil => intro s; exact ⟨rfl, rfl, rfl⟩
  | cons q rest ih => intro s; exact ih (loadPair p s q)

theorem foldl_loadPair_preserve (p : Params) (l m : String) :
    ∀ (pairs : List (String × String)) (s : LocState), (l, m) ∉ pairs →
      (pairs.foldl (loadPair p) s).promises l m = s.promises l m ∧
      (pairs.foldl (loadPair p) s).resources l m = s.resources l m ∧
      (pairs.foldl (loadPair p) s).notifiers l m = s.notifiers l m := by
  intro pairs
  induction pairs with
  | nil => intro s _; exact ⟨rfl, rfl, rfl⟩
  | cons q rest ih =>
    intro s h
    have hq : (l, m) ≠ q := fun he => h (he ▸ List.mem_cons_self q rest)
    have hrest : (l, m) ∉ rest := fun he => h (List.mem_cons_of_mem _ he)
    obtain ⟨h1, h2, h3⟩ := loadPair_other p s q l m hq
    obtain ⟨g1, g2, g3⟩ := ih (loadPair p s q) hrest
    exact ⟨g1.trans h1, g2.trans h2, g3.trans h3⟩

theorem foldl_loadPair_mem (p : Params) (l m : String) :
    ∀ (pairs : List (String × String)) (s : LocState), (l, m) ∈ pairs →
      (pairs.foldl (loadPair p) s).promises l m = true ∧
      (pairs.foldl (loadPair p) s).resources l m = some (loadOrEmpty p l m) ∧
      (pairs.foldl (loadPair p) s).notifiers l m = true := by
  intro pairs
  induction pairs with
  | nil => intro s h; simp at h
  | cons q rest ih =>
    intro s h
    by_cases hrest : (l, m) ∈ rest
    · exact ih (loadPair p s q) hrest
    · have hq : (l, m) = q := by
        rcases List.mem_cons.mp h with h | h
        · exact h
        · exact absurd h hrest
      subst hq
      obtain ⟨g1, g2, g3⟩ := foldl_loadPair_preserve p l m rest (loadPair p s (l, m)) hrest
      obtain ⟨h1, h2, h3⟩ := loadPair_same p s (l, m)
      exact ⟨g1.trans h1, g2.trans h2, g3.trans h3⟩

theorem reload_config (p : Params) (s : LocState) :
    (reload p s).locales = s.locales ∧ (reload p s).modules = s.modules ∧
    (reload p s).formatters = s.formatters :=
  foldl_loadPair_config p _ s

theorem reload_preserve_outside (p : Params) (s : LocState) (l m : String)
    (h : ¬(l ∈ s.locales ∧ m ∈ s.modules)) :
    (reload p s).promises l m = s.promises l m ∧
    (reload p s).resources l m = s.resources l m ∧
    (reload p s).notifiers l m = s.notifiers l m := by
  apply foldl_loadPair_preserve
  intro hmem
  exact h ((mem_crossPairs l m s.locales s.modules).mp (List.mem_filter.mp hmem).1)

theorem setLocales_init (p : Params) (L : List String) :
    setLocales p L initState = { initState with locales := uniqueFirst L } := by
  unfold setLocales reload
  rw [show ({ initState with locales := uniqueFirst L } : LocState).modules = [] from rfl,
    crossPairs_nil]
  rfl

theorem collectAll_isSome :
    ∀ (xs : List (Option Resource)), (∀ x ∈ xs, x.isSome = true) →
      (collectAll xs).isSome = true := by
  intro xs
  induction xs with
  | nil => intro _; rfl
  | cons x rest ih =>
    intro h
    match x, h x (List.mem_cons_self x rest) with
    | some r, _ =>
      have hr := ih (fun y hy => h y (List.mem_cons_of_mem _ hy))
      cases hc : collectAll rest with
      | none => rw [hc] at hr; simp at hr
      | some rs => simp [collectAll, hc]

theorem reload_fresh (p : Params) (L M : List String) (l m : String)
    (hl : l ∈ uniqueFirst L) (hm : m ∈ uniqueFirst M) :
    (reload p { initState with locales := uniqueFirst L, modules := uniqueFirst M }).promises
      l m = true ∧
    (reload p { initState with locales := uniqueFirst L, modules := uniqueFirst M }).resources
      l m = some (loadOrEmpty p l m) ∧
    (reload p { initState with locales := uniqueFirst L, modules := uniqueFirst M }).notifiers
      l m = true := by
  unfold reload
  exact foldl_loadPair_mem p l m _ _
    (List.mem_filter.mpr ⟨(mem_crossPairs l m _ _).mpr ⟨hl, hm⟩, rfl⟩)

theorem never_notifiers (p : Params) (l m : String) :
    ∀ (ops : List LOp) (s : LocState), s.notifiers l m = false → neverPair p l m ops s →
      (applyOps p ops s).notifiers l m = false := by
  intro ops
  induction ops with
  | nil => intro s h _; exact h
  | cons op rest ih =>
    intro s h hnp
    obtain ⟨h1, h2⟩ := hnp
    apply ih (applyOp p op s) _ h2
    match op with
    | .setLs L =>
      have hcfg := reload_config p { s with locales := uniqueFirst L }
      have h1' : ¬(l ∈ ({ s with locales := uniqueFirst L } : LocState).locales ∧
          m ∈ ({ s with locales := uniqueFirst L } : LocState).modules) := by
        intro hc
        exact h1 ⟨hcfg.1.symm ▸ hc.1, hcfg.2.1.symm ▸ hc.2⟩
      exact ((reload_preserve_outside p { s with locales := uniqueFirst L } l m h1').2.2).trans h
    | .setMs M =>
      have hcfg := reload_config p { s with modules := uniqueFirst M }
      have h1' : ¬(l ∈ ({ s with modules := uniqueFirst M } : LocState).locales ∧
          m ∈ ({ s with modules := uniqueFirst M } : LocState).modules) := by
        intro hc
        exact h1 ⟨hcfg.1.symm ▸ hc.1, hcfg.2.1.symm ▸ hc.2⟩
      exact ((reload_preserve_outside p { s with modules := uniqueFirst M } l m h1').2.2).trans h

/-! ### Claim theorems -/

/-- Claim C1 counterexample: after a successful `format("m:a", ["b"])`
under locale `en` cached a formatter under the string id `"en:m:a:b"`,
reconfiguring to locale `en:m` and module `a` makes `format("a", ["b"])`
return the stale cached `"hello"` — even though `read` fails at every
current locale, where the claim demands the exact fallback string
`"en:m:a:b"`. -/
theorem format_stale_cache_counterexample :
    (format c1p 3 none "a" ["b"] c1sB).1 = "hello" ∧
    (readF c1sB.resources c1sB.notifiers 3 "en:m" "a" ["b"]).1 = .error .keyMissing ∧
    c1sB.locales = ["en:m"] ∧
    fallbackStr c1sB.locales "a" ["b"] = "en:m:a:b" ∧
    ("hello" : String) ≠ "en:m:a:b" :=
  ⟨rfl, rfl, rfl, rfl, by decide⟩

/-- Claim C2: for all locale sequences L and module sequences M, after
`setLocales(L)` and `setModules(M)` every pair of L×M is settled — the
promise record exists and the stored resource is the load collaborator's
result, or the empty resource when it threw or rejected — and the future
of `wait()` neither rejects nor faults (`isSome`). -/
theorem setLocales_setModules_wait_settles (p : Params) (L M : List String) :
    (∀ l m, l ∈ L → m ∈ M →
      (setModules p M (setLocales p L initState)).promises l m = true ∧
      (setModules p M (setLocales p L initState)).resources l m = some (loadOrEmpty p l m)) ∧
    (waitM (setModules p M (setLocales p L initState))).isSome = true := by
  rw [setLocales_init p L]
  constructor
  · intro l m hL hM
    have h := reload_fresh p L M l m ((mem_uniqueFirst l L).mpr hL) ((mem_uniqueFirst m M).mpr hM)
    exact ⟨h.1, h.2.1⟩
  · show (waitM (reload p
      { initState with locales := uniqueFirst L, modules := uniqueFirst M })).isSome = true
    have hcfg := reload_config p
      { initState with locales := uniqueFirst L, modules := uniqueFirst M }
    unfold waitM
    rw [hcfg.1, hcfg.2.1]
    apply collectAll_isSome
    intro x hx
    obtain ⟨lm, hlm, rfl⟩ := List.mem_map.mp hx
    obtain ⟨l, m⟩ := lm
    obtain ⟨hl, hm⟩ := (mem_crossPairs l m _ _).mp hlm
    obtain ⟨h1, h2, _⟩ := reload_fresh p L M l m hl hm
    simp only [h1, if_true]
    rw [h2]
    rfl

/-- Claim C2 witness: concrete collaborators, `L = ["en"]`, `M = ["m"]`. -/
theorem setLocales_setModules_wait_settles_witness :
    (setModules c2p ["m"] (setLocales c2p ["en"] initState)).promises "en" "m" = true ∧
    (setModules c2p ["m"] (setLocales c2p ["en"] initState)).resources "en" "m" =
      some (loadOrEmpty c2p "en" "m") ∧
    (waitM (setModules c2p ["m"] (setLocales c2p ["en"] initState))).isSome = true :=
  ⟨((setLocales_setModules_wait_settles c2p ["en"] ["m"]).1 "en" "m" (by decide) (by decide)).1,
   ((setLocales_setModules_wait_settles c2p ["en"] ["m"]).1 "en" "m" (by decide) (by decide)).2,
   (setLocales_setModules_wait_settles c2p ["en"] ["m"]).2⟩

/-- Claim C10: for a pair (locale, module) that was in no locales×modules
cross product along any sequence of `setLocales`/`setModules` calls, no
notifier record exists, so `read` dies with the TypeError of the unchecked
`notifiers[locale]![module]!` lookup-and-call — with no notify event and
before any key-missing or key-partial outcome could be reported. -/
theorem read_unreconciled_pair_type_error (p : Params) (ops : List LOp) (l m : String)
    (key : List String) (fuel : Nat) (h : neverPair p l m ops initState) :
    readF (applyOps p ops initState).resources (applyOps p ops initState).notifiers (fuel+1)
      l m key = (.error .typeError, []) := by
  have hn : (applyOps p ops initState).notifiers l m = false :=
    never_notifiers p l m ops initState rfl h
  simp [readF, hn]

theorem cacheId_inj_locale (l₁ l₂ module : String) (key : List String)
    (h : cacheId l₁ module key = cacheId l₂ module key) : l₁ = l₂ := by
  unfold cacheId at h
  have hd := congrArg String.data h
  simp only [String.data_append, List.append_assoc] at hd
  exact String.ext (List.append_cancel_right hd)

theorem insertFmt_self (s : LocState) (id : String) (f : Fmt) :
    (insertFmt s id f).formatters id = some f := by
  simp [insertFmt]

theorem insertFmt_other (s : LocState) (id : String) (f : Fmt) (i : String) (h : i ≠ id) :
    (insertFmt s id f).formatters i = s.formatters i := by
  simp [insertFmt, h]

theorem localeAttempt_insert (p : Params) (values : Values) (fuel : Nat) (module : String)
    (key : List String) (s : LocState) (l : String) (f : Fmt) (raw : String)
    (hc : s.formatters (cacheId l module key) = none)
    (hr : (readF s.resources s.notifiers fuel l module key).1 = .ok raw)
    (hp : p.parse l module [] raw = .ok f) :
    localeAttempt p values fuel module key (insertFmt s (cacheId l module key) f) =
      localeAttempt p values fuel module key s := by
  funext locale
  by_cases h : cacheId locale module key = cacheId l module key
  · have hl := cacheId_inj_locale locale l module key h
    subst hl
    simp [localeAttempt, insertFmt_self, hc, hr, hp]
  · simp only [localeAttempt]
    rw [insertFmt_other s _ f _ h]
    rfl

theorem formatGo_eq_findSome (p : Params) (values : Values) (fuel : Nat) (module : String)
    (key : List String) (fb : String) :
    ∀ (locs : List String) (s : LocState),
      (formatGo p values fuel module key fb locs s).1 =
        ((locs.findSome? (localeAttempt p values fuel module key s)).getD fb) := by
  intro locs
  induction locs with
  | nil => intro s; rfl
  | cons locale rest ih =>
    intro s
    rw [List.findSome?_cons]
    cases hcache : s.formatters (cacheId locale module key) with
    | some f =>
      cases hv : f values with
      | ok out => simp [formatGo, localeAttempt, hcache, hv, toOpt]
      | error e => simp [formatGo, localeAttempt, hcache, hv, toOpt, ih s]
    | none =>
      cases hr : (readF s.resources s.notifiers fuel locale module key).1 with
      | error e => simp [formatGo, localeAttempt, hcache, hr, ih s]
      | ok raw =>
        cases hp : p.parse locale module [] raw with
        | error e => simp [formatGo, localeAttempt, hcache, hr, hp, ih s]
        | ok f =>
          cases hv : f values with
          | ok out => simp [formatGo, localeAttempt, hcache, hr, hp, hv, toOpt]
          | error e =>
            have hAtt := localeAttempt_insert p values fuel module key s locale f raw hcache hr hp
            simp [formatGo, localeAttempt, hcache, hr, hp, hv, toOpt, ih, hAtt]

/-- Claim C1 (amended): `format` raises nothing (it is total) and returns
the result of the first locale whose attempt succeeds, where the attempt
invokes an already-cached formatter stored under the string id
`locale:module:key-joined-by-commas` when one exists — skipping `read`
entirely — and otherwise reads, parses, caches and invokes; when every
locale's attempt fails it returns exactly the string formed of the
locales joined by `'|'`, then `':'`, the module, `':'`, and the key
segments joined by `'.'`. -/
theorem format_first_success_or_fallback (p : Params) (fuel : Nat) (values : Values)
    (module : String) (key : List String) (s : LocState) :
    (format p fuel values module key s).1 =
      ((s.locales.findSome? (localeAttempt p values fuel module key s)).getD
        (fallbackStr s.locales module key)) :=
  formatGo_eq_findSome p values fuel module key (fallbackStr s.locales module key) s.locales s

theorem readF_events_head (res : String → String → Option Resource)
    (ntf : String → String → Bool) (fuel : Nat) (l m : String) (key : List String)
    (h : ntf l m = true) :
    ((readF res ntf (fuel+1) l m key).2).head? =
      some (.notify l m key (rawLookup (res l m) key)) := by
  cases hraw : rawLookup (res l m) key with
  | none => simp [readF, h, hraw]
  | some r =>
    cases r with
    | node es => simp [readF, h, hraw]
    | leaf s =>
      by_cases hs : s = ""
      · subst hs; simp [readF, h, hraw]
      · simp [readF, h, hraw, hs]

/-- Claim C6 counterexample: for the reconciled pair `("en", "m")` with a
bound notifier, a second `format("m", ["k"])` call accesses the key but —
the compiled formatter being cached — skips `read` and emits no notifier
call at all, while the first call did notify. -/
theorem format_cache_hit_skips_notifier_counterexample :
    c6sB.notifiers "en" "m" = true ∧
    (format c6p 2 none "m" ["k"] c6sA).2.2.head? =
      some (.notify "en" "m" ["k"] (some (.leaf "v"))) ∧
    (format c6p 2 none "m" ["k"] c6sB).1 = "v" ∧
    (format c6p 2 none "m" ["k"] c6sB).2.2 = [] :=
  ⟨rfl, rfl, rfl, rfl⟩

/-- Claim C6 (amended): every invocation of `read` on a pair whose
notifier is bound notifies first, with the key path and the raw resolved
value (`none` when missing) and regardless of outcome; `format` notifies
through `read` only when no compiled formatter is cached for the triple's
id — on a cache hit `read` is skipped and no notification occurs. -/
theorem read_always_notifies_format_notifies_uncached :
    (∀ (res : String → String → Option Resource) (ntf : String → String → Bool) (fuel : Nat)
        (l m : String) (key : List String), ntf l m = true →
      ((readF res ntf (fuel+1) l m key).2).head? =
        some (.notify l m key (rawLookup (res l m) key))) ∧
    (∀ (p : Params) (values : Values) (fuel : Nat) (module : String) (key : List String)
        (fb locale : String) (rest : List String) (s : LocState),
      s.notifiers locale module = true →
      s.formatters (cacheId locale module key) = none →
      ((formatGo p values (fuel+1) module key fb (locale :: rest) s).2.2).head? =
        some (.notify locale module key (rawLookup (s.resources locale module) key))) := by
  constructor
  · exact readF_events_head
  · intro p values fuel module key fb locale rest s hn hc
    have hh := readF_events_head s.resources s.notifiers fuel locale module key hn
    cases h2 : (readF s.resources s.notifiers (fuel+1) locale module key).2 with
    | nil => rw [h2] at hh; simp at hh
    | cons a t =>
      rw [h2] at hh
      have ha : a = Ev.notify locale module key (rawLookup (s.resources locale module) key) := by
        simpa using hh
      cases hr : (readF s.resources s.notifiers (fuel+1) locale module key).1 with
      | error e => simp [formatGo, hc, hr, h2, ha]
      | ok raw =>
        cases hp : p.parse locale module [] raw with
        | error e => simp [formatGo, hc, hr, hp, h2, ha]
        | ok f =>
          cases hv : f values with
          | ok out => simp [formatGo, hc, hr, hp, hv, h2, ha]
          | error e => simp [formatGo, hc, hr, hp, hv, h2, ha]

/-- Claim C6 witness: both clauses at the loaded pair `("en", "m")` with
key `k`. -/
theorem read_always_notifies_format_notifies_uncached_witness :
    ((readF c6resW ntfAll 1 "en" "m" ["k"]).2).head? =
      some (.notify "en" "m" ["k"] (rawLookup (c6resW "en" "m") ["k"])) ∧
    ((formatGo c6p none 1 "m" ["k"] "fb" ["en"] c6sW).2.2).head? =
      some (.notify "en" "m" ["k"] (rawLookup (c6sW.resources "en" "m") ["k"])) :=
  ⟨read_always_notifies_format_notifies_uncached.1 c6resW ntfAll 0 "en" "m" ["k"] rfl,
   read_always_notifies_format_notifies_uncached.2 c6p none 0 "m" ["k"] "fb" "en" [] c6sW
     rfl rfl⟩

theorem expandPieces_no_parseCall
    (readFn : String → String → List String → Except ReadErr String × List Ev)
    (locale module a b c : String)
    (h : ∀ l' m' k', Ev.parseCall a b c ∉ (readFn l' m' k').2) :
    ∀ pieces, Ev.parseCall a b c ∉ (expandPieces readFn locale module pieces).2 := by
  intro pieces
  induction pieces with
  | nil => simp [expandPieces]
  | cons piece rest ih =>
    cases piece with
    | lit cs => simpa [expandPieces] using ih
    | ref inner =>
      have hin := h locale (refTarget module (String.mk inner)).1 (refTarget module (String.mk inner)).2
      cases hrd : readFn locale (refTarget module (String.mk inner)).1
          (refTarget module (String.mk inner)).2 with
      | mk r evs =>
        rw [hrd] at hin
        cases r with
        | error e => simpa [expandPieces, hrd] using hin
        | ok str =>
          simp only [expandPieces, hrd]
          intro hmem
          rcases List.mem_append.mp hmem with h1 | h2
          · exact hin h1
          · exact ih h2

theorem readF_no_parseCall (a b c : String) :
    ∀ (fuel : Nat) (res : String → String → Option Resource) (ntf : String → String → Bool)
      (l m : String) (key : List String),
      Ev.parseCall a b c ∉ (readF res ntf fuel l m key).2 := by
  intro fuel
  induction fuel with
  | zero => intro res ntf l m key; simp [readF]
  | succ n ih =>
    intro res ntf l m key
    cases hb : ntf l m with
    | false => simp [readF, hb]
    | true =>
      cases hraw : rawLookup (res l m) key with
      | none => simp [readF, hb, hraw]
      | some r =>
        cases r with
        | node es => simp [readF, hb, hraw]
        | leaf s =>
          by_cases hs : s = ""
          · subst hs; simp [readF, hb, hraw]
          · have hexp := expandPieces_no_parseCall (readF res ntf n) l m a b c
              (fun l' m' k' => ih res ntf l' m' k')
              (refSplit (s.data.length + 1) s.data)
            simp only [readF, hb, hraw, hs, if_true, if_false]
            intro hmem
            rcases List.mem_cons.mp hmem with h1 | h2
            · cases h1
            · exact hexp h2

theorem formatGo_cache_mono (p : Params) (values : Values) (fuel : Nat) (module : String)
    (key : List String) (fb : String) :
    ∀ (locs : List String) (s : LocState) (id : String) (f : Fmt),
      s.formatters id = some f →
      ((formatGo p values fuel module key fb locs s).2.1).formatters id = some f := by
  intro locs
  induction locs with
  | nil => intro s id f h; exact h
  | cons locale rest ih =>
    intro s id f h
    cases hcache : s.formatters (cacheId locale module key) with
    | some g =>
      cases hv : g values with
      | ok out => simpa [formatGo, hcache, hv] using h
      | error e => simpa [formatGo, hcache, hv] using ih s id f h
    | none =>
      cases hr : (readF s.resources s.notifiers fuel locale module key).1 with
      | error e => simpa [formatGo, hcache, hr] using ih s id f h
      | ok raw =>
        cases hp : p.parse locale module [] raw with
        | error e => simpa [formatGo, hcache, hr, hp] using ih s id f h
        | ok g =>
          have hne : id ≠ cacheId locale module key := by
            intro he
            rw [he] at h
            rw [h] at hcache
            cases hcache
          have hpres : (insertFmt s (cacheId locale module key) g).formatters id = some f :=
            (insertFmt_other s _ g id hne).trans h
          cases hv : g values with
          | ok out => simpa [formatGo, hcache, hr, hp, hv] using hpres
          | error e => simpa [formatGo, hcache, hr, hp, hv] using ih _ id f hpres

theorem formatGo_no_reparse (p : Params) (values : Values) (fuel : Nat) (module : String)
    (key : List String) (fb l : String) :
    ∀ (locs : List String) (s : LocState) (f : Fmt),
      s.formatters (cacheId l module key) = some f →
      ∀ raw, Ev.parseCall l module raw ∉ (formatGo p values fuel module key fb locs s).2.2 := by
  intro locs
  induction locs with
  | nil => intro s f h raw; simp [formatGo]
  | cons locale rest ih =>
    intro s f h raw
    cases hcache : s.formatters (cacheId locale module key) with
    | some g =>
      cases hv : g values with
      | ok out => simp [formatGo, hcache, hv]
      | error e => simpa [formatGo, hcache, hv] using ih s f h raw
    | none =>
      have hne : locale ≠ l := by
        intro he
        subst he
        rw [hcache] at h
        cases h
      cases hr : (readF s.resources s.notifiers fuel locale module key).1 with
      | error e =>
        simp only [formatGo, hcache, hr]
        intro hmem
        rcases List.mem_append.mp hmem with h1 | h2
        · exact readF_no_parseCall l module raw fuel s.resources s.notifiers locale module key h1
        · exact ih s f h raw h2
      | ok raw2 =>
        cases hp : p.parse locale module [] raw2 with
        | error e =>
          simp only [formatGo, hcache, hr, hp]
          intro hmem
          rcases List.mem_append.mp hmem with h1 | h2
          · rcases List.mem_append.mp h1 with h3 | h4
            · exact readF_no_parseCall l module raw fuel s.resources s.notifiers locale module key h3
            · have h5 := List.mem_singleton.mp h4
              injection h5 with e1 e2 e3
              exact absurd e1.symm hne
          · exact ih s f h raw h2
        | ok g =>
          have hne2 : cacheId l module key ≠ cacheId locale module key := by
            intro he
            rw [he, hcache] at h
            cases h
          have hpres : (insertFmt s (cacheId locale module key) g).formatters
              (cacheId l module key) = some f :=
            (insertFmt_other s _ g _ hne2).trans h
          cases hv : g values with
          | ok out =>
            simp only [formatGo, hcache, hr, hp, hv]
            intro hmem
            rcases List.mem_append.mp hmem with h1 | h2
            · exact readF_no_parseCall l module raw fuel s.resources s.notifiers locale module key h1
            · have h5 := List.mem_singleton.mp h2
              injection h5 with e1 e2 e3
              exact absurd e1.symm hne
          | error e =>
            simp only [formatGo, hcache, hr, hp, hv]
            intro hmem
            rcases List.mem_append.mp hmem with h1 | h2
            · rcases List.mem_append.mp h1 with h3 | h4
              · exact readF_no_parseCall l module raw fuel s.resources s.notifiers locale module key h3
              · have h5 := List.mem_singleton.mp h4
                injection h5 with e1 e2 e3
                exact absurd e1.symm hne
            · exact ih _ f hpres raw h2

/-- Claim C10 witness: locales `["en"]` and modules `["mm"]` are
configured, and the unreconciled pair `("fr", "mm")` is read. -/
theorem read_unreconciled_pair_type_error_witness :
    readF (applyOps c10p c10ops initState).resources (applyOps c10p c10ops initState).notifiers
      1 "fr" "mm" ["k"] = (.error .typeError, []) :=
  read_unreconciled_pair_type_error c10p c10ops "fr" "mm" ["k"] 0
    ⟨by decide, by decide, trivial⟩

/-- Claim C7 counterexample: the cache key is the string
`locale:module:key-joined-by-commas`, not the triple — the distinct
triples `("en", "m", ["a","b"])` and `("en", "m", ["a,b"])` encode to the
same id, so after `format("m", ["a","b"])` caches its formatter, the
distinct triple's `format("m", ["a,b"])` shares that entry: it returns the
first triple's `"v"` with no parse invocation although its own `read`
fails. -/
theorem cacheId_collision_counterexample :
    cacheId "en" "m" ["a", "b"] = cacheId "en" "m" ["a,b"] ∧
    (["a", "b"] : List String) ≠ ["a,b"] ∧
    (format c7p 2 none "m" ["a", "b"] c7sA).1 = "v" ∧
    (format c7p 2 none "m" ["a,b"] c7sB).1 = "v" ∧
    (readF c7sB.resources c7sB.notifiers 2 "en" "m" ["a,b"]).1 = .error .keyMissing ∧
    (format c7p 2 none "m" ["a,b"] c7sB).2.2 = [] :=
  ⟨rfl, by decide, rfl, rfl, rfl, rfl⟩

/-- Claim C7 (amended): the compiled-formatter cache is keyed by the
encoded string id `locale:module:key-joined-by-commas` (triples whose
encodings coincide share an entry); a filled slot is never overwritten or
invalidated by any `format` call, a triple whose id is cached is never
re-parsed — no parse invocation with its locale and module is emitted —
and the cached entry is reused: when the triple's locale is tried first
and its cached formatter succeeds, its output is returned. -/
theorem formatter_cache_append_only :
    (∀ (p : Params) (values : Values) (fuel : Nat) (module : String) (key : List String)
        (fb : String) (locs : List String) (s : LocState) (id : String) (f : Fmt),
      s.formatters id = some f →
      ((formatGo p values fuel module key fb locs s).2.1).formatters id = some f) ∧
    (∀ (p : Params) (values : Values) (fuel : Nat) (module : String) (key : List String)
        (fb : String) (locs : List String) (s : LocState) (l : String) (f : Fmt),
      s.formatters (cacheId l module key) = some f →
      ∀ raw, Ev.parseCall l module raw ∉ (formatGo p values fuel module key fb locs s).2.2) ∧
    (∀ (p : Params) (values : Values) (fuel : Nat) (module : String) (key : List String)
        (fb : String) (rest : List String) (s : LocState) (l : String) (f : Fmt) (out : String),
      s.formatters (cacheId l module key) = some f → f values = .ok out →
      (formatGo p values fuel module key fb (l :: rest) s).1 = out) :=
  ⟨fun p values fuel module key fb locs s id f h =>
    formatGo_cache_mono p values fuel module key fb locs s id f h,
   fun p values fuel module key fb locs s l f h raw =>
    formatGo_no_reparse p values fuel module key fb l locs s f h raw,
   fun p values fuel module key fb rest s l f out h hv => by simp [formatGo, h, hv]⟩

/-- Claim C7 witness: all three clauses at a state whose cache holds one
formatter under the id of `("en", "m", ["k"])`. -/
theorem formatter_cache_append_only_witness :
    ((formatGo c7p none 1 "m" ["k"] "fb" ["en"] c7sW).2.1).formatters
      (cacheId "en" "m" ["k"]) = some c7fW ∧
    Ev.parseCall "en" "m" "raw0" ∉ (formatGo c7p none 1 "m" ["k"] "fb" ["en"] c7sW).2.2 ∧
    (formatGo c7p none 1 "m" ["k"] "fb" ["en"] c7sW).1 = "out" :=
  ⟨formatter_cache_append_only.1 c7p none 1 "m" ["k"] "fb" ["en"] c7sW
      (cacheId "en" "m" ["k"]) c7fW rfl,
   formatter_cache_append_only.2.1 c7p none 1 "m" ["k"] "fb" ["en"] c7sW "en" c7fW rfl "raw0",
   formatter_cache_append_only.2.2 c7p none 1 "m" ["k"] "fb" [] c7sW "en" c7fW "out" rfl rfl⟩

/-- Claim C3 counterexample: for the resource `{ a: "" }` a string leaf
exists at path `["a"]`, yet `read` throws key-missing (the falsy check
`if (!raw)` also fires on the empty string), so key-missing is not thrown
exactly when no leaf exists. -/
theorem read_empty_leaf_counterexample :
    readF c3res ntfAll 1 "en" "m" ["a"] =
      (.error .keyMissing, [.notify "en" "m" ["a"] (some (.leaf ""))]) ∧
    rawLookup (c3res "en" "m") ["a"] = some (.leaf "") :=
  ⟨rfl, rfl⟩

/-- Claim C3 (amended): for a loaded pair whose notifier exists, `read`
fails with key-missing when no value is at the path or when the leaf is
the empty string, fails with key-partial (`keyNotLeaf`) when the path hits
an intermediate node, and returns the leaf when it is a nonempty string
free of nesting markers — always notifying first. -/
theorem read_outcome_classification (res : String → String → Option Resource)
    (ntf : String → String → Bool) (fuel : Nat) (l m : String) (key : List String)
    (h : ntf l m = true) :
    (rawLookup (res l m) key = none →
      readF res ntf (fuel+1) l m key = (.error .keyMissing, [.notify l m key none])) ∧
    (rawLookup (res l m) key = some (.leaf "") →
      readF res ntf (fuel+1) l m key =
        (.error .keyMissing, [.notify l m key (some (.leaf ""))])) ∧
    (∀ es, rawLookup (res l m) key = some (.node es) →
      readF res ntf (fuel+1) l m key =
        (.error .keyNotLeaf, [.notify l m key (some (.node es))])) ∧
    (∀ s, rawLookup (res l m) key = some (.leaf s) → s ≠ "" → findRef s.data = none →
      readF res ntf (fuel+1) l m key = (.ok s, [.notify l m key (some (.leaf s))])) := by
  refine ⟨fun heq => ?_, fun heq => ?_, fun es heq => ?_, fun s heq hs hfr => ?_⟩
  · simp [readF, h, heq]
  · simp [readF, h, heq]
  · simp [readF, h, heq]
  · simp [readF, h, heq, hs, refSplit, hfr, expandPieces, String.append_empty]

/-- Claim C3 witness: the nonempty marker-free leaf case at a concrete
resource. -/
theorem read_outcome_classification_witness :
    readF c3resW ntfAll 1 "en" "m" ["a"] = (.ok "x", [.notify "en" "m" ["a"] (some (.leaf "x"))]) :=
  (read_outcome_classification c3resW ntfAll 0 "en" "m" ["a"] rfl).2.2.2 "x" rfl (by decide) rfl

/-- Claim C4: the flattened resource `{ "a.b": "x" }` and the nested
resource `{ a: { b: "x" } }` both resolve the key path `["a","b"]` to the
leaf `"x"`, and in general whenever the single flattened key is present
its value is taken before any segment-by-segment traversal. -/
theorem read_flattened_nested_equivalence :
    ((readF c4resFlat ntfAll 1 "en" "m" ["a", "b"]).1 = .ok "x") ∧
    ((readF c4resNest ntfAll 1 "en" "m" ["a", "b"]).1 = .ok "x") ∧
    (∀ (r : Resource) (key : List String) (v : Resource),
      r.get (joinSep "." key) = some v → rawLookup (some r) key = some v) :=
  ⟨rfl, rfl, fun r key v h => by simp [rawLookup, h]⟩

/-- Claim C4 witness: the flattened-first general clause at a concrete
resource. -/
theorem read_flattened_nested_equivalence_witness :
    rawLookup (some (Resource.node [("k", .leaf "z")])) ["k"] = some (.leaf "z") :=
  read_flattened_nested_equivalence.2.2 (.node [("k", .leaf "z")]) ["k"] (.leaf "z") rfl

/-- Claim C5: nesting expansion of self-closing reference markers —
`{ app: "X", welcome: "Hi <:app/>" }` at `welcome` yields `"Hi X"`
(module defaults to the current one), a dotted reference `<:n.d/>`
resolves the key path `["n","d"]`, and `<:m2:other/>` inside module `m1`
resolves key `other` of module `m2`. -/
theorem read_nesting_expansion_examples :
    ((readF c5res ntfAll 2 "en" "m" ["welcome"]).1 = .ok "Hi X") ∧
    ((readF c5res ntfAll 2 "en" "m" ["deep"]).1 = .ok "D") ∧
    ((readF c5resX ntfAll 2 "en" "m1" ["k"]).1 = .ok "A O B") :=
  ⟨rfl, rfl, rfl⟩

/-- Claim C8: on `"0<a>1<b/>2</a>3"` with `{ a: wrap, b: wrap }` the
tagger pushes `"0"`, the wrapped `a`-frame `"<a>1<b></b>2</a>"` (the
self-closing `b` contributing `"<b></b>"`), and `"3"` onto the root frame,
and hands exactly these flattened children to the fallback tag with the
empty tag name; joined they read `"0<a>1<b></b>2</a>3"`. -/
theorem tagger_example_aggregate (tag0 : List String → String → String) :
    tagger id tag0 "0<a>1<b/>2</a>3" c8tags = some (tag0 ["0", "<a>1<b></b>2</a>", "3"] "") ∧
    String.join ["0", "<a>1<b></b>2</a>", "3"] = "0<a>1<b></b>2</a>3" :=
  ⟨rfl, rfl⟩

/-- Claim C9: for every input text and tag map the tagger completes and
returns a value — the stack machine never hits the empty-stack fault, so
unbalanced or malformed markup (unclosed openers, excess closers) cannot
raise. -/
theorem tagger_never_throws {α : Type} (ofString : String → α) (tag : List α → String → α)
    (text : String) (tags : String → Option (List α → String → α)) :
    (tagger ofString tag text tags).isSome = true := by
  unfold tagger
  have h := runPieces_isSome ofString tag tags (lex text) [[]] (by simp)
  cases hr : runPieces ofString tag tags (lex text) [[]] with
  | none => rw [hr] at h; simp at h
  | some stack => simp

end Intl
